import Mathlib

/-!
Verification of the workspace-membership, invitation, project-visibility and
notification-delivery core of the lmk repository.

The TypeScript services are embedded shallowly: each repository write is a
pure state transformation, `new Date()` acquisitions inside one request are a
single `now : Nat` parameter (milliseconds), thrown domain errors become
explicit error values, and external collaborators (Mongo repositories, Clerk
auth, the Resend provider) enter as explicit inputs (the looked-up record, the
provider verdict).
-/

namespace Lmk

/-- Roles of workspace members, from WorkspaceDomain.WorkspaceRole. -/
inductive WorkspaceRole
  | OWNER
  | ADMIN
  | EDITOR
  | VIEWER
deriving DecidableEq, Repr

/-- A workspace member row, from WorkspaceDomain.WorkspaceMember.
UserId values are their underlying strings. -/
structure WorkspaceMember where
  userId : String
  role : WorkspaceRole
  invitedBy : Option String := none
  joinedAt : Nat
  invitedAt : Option Nat := none
deriving DecidableEq, Repr

/-- A workspace invite record, from WorkspaceDomain.WorkspaceInvite.
The optional accepted flag of the TS interface is a Bool here: every
creation site writes accepted explicitly and every reader treats a missing
flag as false. -/
structure WorkspaceInvite where
  id : String
  email : String
  role : WorkspaceRole
  invitedByClerkId : String
  token : String
  expiresAt : Nat
  createdAt : Nat
  accepted : Bool
  acceptedAt : Option Nat := none
  acceptedByClerkId : Option String := none
deriving DecidableEq, Repr

/-- The workspace aggregate, from WorkspaceDomain.Workspace, restricted to the
fields the membership and invite operations read or write. -/
structure Workspace where
  id : String
  name : String
  slug : String
  ownerId : String
  members : List WorkspaceMember
  invites : List WorkspaceInvite
  createdAt : Option Nat := none
  updatedAt : Nat := 0
deriving DecidableEq, Repr

/-- Domain errors thrown by WorkspaceService methods (each thrown
`new Error(message)` becomes one constructor). -/
inductive WorkspaceError
  | slugTaken
  | workspaceNotFound
  | alreadyMember
  | ownerUnremovable
deriving DecidableEq, Repr

/-- WorkspaceService.createWorkspace.  `slugTaken` is the verdict of the
repository findBySlug pre-check; `wsId` is the id the repository save assigns.
The service saves the workspace with an empty member list, then pushes the
creator as an explicit OWNER member row and updates the stored record, and
returns the updated aggregate. -/
def createWorkspace (slugTaken : Bool) (name slug ownerId wsId : String) (now : Nat) :
    Except WorkspaceError Workspace :=
  if slugTaken then
    .error .slugTaken
  else
    let saved : Workspace :=
      { id := wsId, name := name, slug := slug, ownerId := ownerId,
        members := [], invites := [], createdAt := some now, updatedAt := now }
    let ownerMember : WorkspaceMember :=
      { userId := ownerId, role := .OWNER, joinedAt := now }
    .ok { saved with members := saved.members ++ [ownerMember], updatedAt := now }

/-- WorkspaceService.removeMember.  The repository findById result is the
Option argument; a miss throws workspaceNotFound, removing the owner throws
ownerUnremovable, otherwise the member list is filtered and written back. -/
def removeMember (found : Option Workspace) (userId : String) (now : Nat) :
    Except WorkspaceError Workspace :=
  match found with
  | none => .error .workspaceNotFound
  | some w =>
    if w.ownerId = userId then
      .error .ownerUnremovable
    else
      .ok { w with members := w.members.filter (fun m => m.userId ≠ userId),
                   updatedAt := now }

/-- C4 counterexample: createWorkspace does insert an explicit OWNER member
row for the creator.  On a fresh workspace for owner u1 the returned member
list is exactly the one OWNER row for u1, refuting the claim that the members
list contains no entry for ownerId. -/
theorem createWorkspace_owner_row_cex :
    (createWorkspace false "Acme" "acme" "u1" "ws1" 0).map (fun w => w.members) =
      .ok [{ userId := "u1", role := .OWNER, joinedAt := 0 }] := rfl

/-- C4 amended: for every successful workspace creation (slug free), the
persisted workspace carries the creator as an explicit OWNER member row: the
member list is exactly one OWNER entry for ownerId. -/
theorem createWorkspace_owner_row_amended (name slug ownerId wsId : String) (now : Nat) :
    (createWorkspace false name slug ownerId wsId now).map (fun w => w.members) =
      .ok [{ userId := ownerId, role := .OWNER, joinedAt := now }] := rfl

/-- C8: removeMember fails exactly when the target is the owner; removing a
userId that is not a current member (and not the owner) is a no-op success
leaving the member list unchanged, and repeating the call again succeeds with
no further effect. -/
theorem removeMember_spec (w : Workspace) (userId : String) (n1 n2 : Nat)
    (habs : ∀ m ∈ w.members, m.userId ≠ userId) :
    ((∃ e, removeMember (some w) userId n1 = .error e) ↔ userId = w.ownerId) ∧
    (userId ≠ w.ownerId →
      removeMember (some w) userId n1 = .ok { w with updatedAt := n1 } ∧
      removeMember (some { w with updatedAt := n1 }) userId n2 =
        .ok { w with updatedAt := n2 }) := by
  have hfilter : w.members.filter (fun m => m.userId ≠ userId) = w.members := by
    apply List.filter_eq_self.mpr
    intro m hm
    simpa using habs m hm
  constructor
  · constructor
    · rintro ⟨e, he⟩
      by_contra hne
      have : w.ownerId ≠ userId := fun h => hne h.symm
      simp [removeMember, this] at he
    · intro h
      exact ⟨.ownerUnremovable, by simp [removeMember, h.symm]⟩
  · intro hne
    have : w.ownerId ≠ userId := fun h => hne h.symm
    constructor
    · simp only [removeMember, if_neg this]
      rw [hfilter]
    · simp only [removeMember, if_neg this]
      rw [hfilter]

/-- Concrete workspace used to instantiate removeMember_spec. -/
def removeMemberExampleWorkspace : Workspace :=
  { id := "ws1", name := "Acme", slug := "acme", ownerId := "u1",
    members := [{ userId := "u2", role := .EDITOR, joinedAt := 3 }],
    invites := [] }

/-- C8 witness: removeMember_spec applied to a concrete workspace whose
member list does not contain the removed user u9. -/
theorem removeMember_spec_witness :
    ((∃ e, removeMember (some removeMemberExampleWorkspace) "u9" 5 = .error e) ↔
        "u9" = removeMemberExampleWorkspace.ownerId) ∧
    ("u9" ≠ removeMemberExampleWorkspace.ownerId →
      removeMember (some removeMemberExampleWorkspace) "u9" 5 =
        .ok { removeMemberExampleWorkspace with updatedAt := 5 } ∧
      removeMember (some { removeMemberExampleWorkspace with updatedAt := 5 }) "u9" 6 =
        .ok { removeMemberExampleWorkspace with updatedAt := 6 }) :=
  removeMember_spec removeMemberExampleWorkspace "u9" 5 6 (by decide)

/-- The accepting user as the invite-accept route sees it: the internal id
(user.id.value), the Clerk id returned by auth(), and the account email. -/
structure User where
  internalId : String
  clerkId : String
  email : String
deriving DecidableEq, Repr

/-- The early error returns of the invite-accept route, in the order the route
checks them. -/
inductive AcceptError
  | inviteNotFound
  | alreadyAccepted
  | expired
  | emailMismatch
  | alreadyMember
deriving DecidableEq, Repr

/-- The validation ladder of the invite-accept route (part of POST): find the
invite by token, then reject if already accepted, expired (expiresAt earlier
than now), email mismatch, or the user already a member (members are compared
by Clerk id, the owner by internal id). -/
def acceptChecks (w : Workspace) (token : String) (user : User) (now : Nat) :
    Option AcceptError :=
  match w.invites.find? (fun inv => inv.token = token) with
  | none => some .inviteNotFound
  | some inv =>
    if inv.accepted then some .alreadyAccepted
    else if inv.expiresAt < now then some .expired
    else if user.email ≠ inv.email then some .emailMismatch
    else if w.members.any (fun m => m.userId = user.clerkId) = true ∨
            w.ownerId = user.internalId then some .alreadyMember
    else none

/-- WorkspaceService.addMemberByClerkId: reject when a member with this Clerk
id exists, otherwise push the new member row and write the member list back
(this is the first of the two writes of the accept route). -/
def addMemberByClerkId (w : Workspace) (clerkId : String) (role : WorkspaceRole)
    (invitedByClerkId : Option String) (now : Nat) : Except WorkspaceError Workspace :=
  if w.members.any (fun m => m.userId = clerkId) then
    .error .alreadyMember
  else
    .ok { w with
          members := w.members ++
            [{ userId := clerkId, role := role, joinedAt := now,
               invitedBy := invitedByClerkId,
               invitedAt := invitedByClerkId.map (fun _ => now) }],
          updatedAt := now }

/-- Replace the element at the first index satisfying p (the findIndex
followed by index assignment used on the fresh invite array). -/
def setFirst {α : Type} (p : α → Bool) (a : α) : List α → List α
  | [] => []
  | x :: xs => if p x then a :: xs else x :: setFirst p a xs

/-- The second write of the accept route: re-read the workspace, find the
invite by token in the fresh data, overwrite it with the accepted copy of the
originally fetched invite, and store the invite array via
WorkspaceService.updateInvites.  When the token is no longer found the route
only logs a warning and stores nothing. -/
def acceptSecondWrite (fresh : Workspace) (origInvite : WorkspaceInvite)
    (token clerkId : String) (now : Nat) : Workspace :=
  if fresh.invites.any (fun inv => inv.token = token) then
    { fresh with
      invites := setFirst (fun inv => inv.token = token)
        ({ origInvite with
           accepted := true,
           acceptedAt := some now,
           acceptedByClerkId := some clerkId }) fresh.invites,
      updatedAt := now }
  else fresh

/-- The invite-accept route end to end on an execution in which both writes
complete: validation ladder, then the member-add write, then the separate
invite-mark-accepted write. -/
def acceptInvite (w : Workspace) (token : String) (user : User) (now : Nat) :
    Except AcceptError Workspace :=
  match acceptChecks w token user now with
  | some e => .error e
  | none =>
    match w.invites.find? (fun inv => inv.token = token) with
    | none => .error .inviteNotFound
    | some inv =>
      match addMemberByClerkId w user.clerkId inv.role (some inv.invitedByClerkId) now with
      | .error _ => .error .alreadyMember
      | .ok w1 => .ok (acceptSecondWrite w1 inv token user.clerkId now)

/-- The sequence of persisted workspace states an accept-route execution
produces: the pre-state, then (when validation passes and the member-add
write commits) the state after the first write, then the state after the
separate invite write.  The middle state is durable between the two
repository updates, so it is observable after a partial failure and by
concurrent readers. -/
def acceptReachableStates (w : Workspace) (token : String) (user : User) (now : Nat) :
    List Workspace :=
  match acceptChecks w token user now with
  | some _ => [w]
  | none =>
    match w.invites.find? (fun inv => inv.token = token) with
    | none => [w]
    | some inv =>
      match addMemberByClerkId w user.clerkId inv.role (some inv.invitedByClerkId) now with
      | .error _ => [w]
      | .ok w1 => [w, w1, acceptSecondWrite w1 inv token user.clerkId now]

/-- The member row the first write of the accept route appends. -/
def acceptNewMember (user : User) (inv : WorkspaceInvite) (now : Nat) : WorkspaceMember :=
  { userId := user.clerkId, role := inv.role, joinedAt := now,
    invitedBy := some inv.invitedByClerkId, invitedAt := some now }

/-- The workspace state committed by the first write of the accept route. -/
def acceptFirstWrite (w : Workspace) (user : User) (inv : WorkspaceInvite) (now : Nat) :
    Workspace :=
  { w with members := w.members ++ [acceptNewMember user inv now], updatedAt := now }

/-- A live invite for the acceptance scenarios. -/
def acceptExampleInvite : WorkspaceInvite :=
  { id := "inv1", email := "a@x.com", role := .EDITOR, invitedByClerkId := "c1",
    token := "T", expiresAt := 100, createdAt := 0, accepted := false }

/-- A workspace holding the live invite, owned by internal user i1. -/
def acceptExampleWorkspace : Workspace :=
  { id := "ws1", name := "Acme", slug := "acme", ownerId := "i1",
    members := [], invites := [acceptExampleInvite], createdAt := some 0 }

/-- The invited user accepting with the matching email. -/
def acceptingUser : User := { internalId := "i2", clerkId := "c2", email := "a@x.com" }

/-- C1: the accept route performs the member addition and the invite marking
as two separate repository writes, so a state in which the accepting user is
already a member while the invite still has accepted = false is reachable
(durable after the first write), contradicting the claimed single atomic
transition. -/
theorem acceptInvite_intermediate_unaccepted_state :
    ∃ s ∈ acceptReachableStates acceptExampleWorkspace "T" acceptingUser 50,
      s.members.any (fun m => m.userId = acceptingUser.clerkId) = true ∧
      (s.invites.find? (fun inv => inv.token = "T")).map WorkspaceInvite.accepted =
        some false := by
  decide

/-- find? returns the replacement after setFirst overwrote the first match. -/
theorem find?_setFirst {α : Type} (p : α → Bool) (a : α) (l : List α)
    (hl : l.any p = true) (ha : p a = true) :
    (setFirst p a l).find? p = some a := by
  induction l with
  | nil => simp at hl
  | cons x xs ih =>
    by_cases hx : p x = true
    · simp only [setFirst, if_pos hx]
      exact List.find?_cons_of_pos _ ha
    · simp only [setFirst, if_neg hx]
      rw [List.find?_cons_of_neg _ hx]
      apply ih
      simpa [List.any_cons, hx] using hl

/-- C5: the accept route applies its checks in order — missing token, already
accepted, expired, email mismatch, already a member or the owner — and only
when all pass does it add the member and mark the invite accepted. -/
theorem acceptInvite_check_order (w : Workspace) (token : String) (user : User) (now : Nat) :
    (w.invites.find? (fun inv => inv.token = token) = none →
       acceptInvite w token user now = .error .inviteNotFound) ∧
    (∀ inv, w.invites.find? (fun inv2 => inv2.token = token) = some inv →
      (inv.accepted = true →
         acceptInvite w token user now = .error .alreadyAccepted) ∧
      (inv.accepted = false → inv.expiresAt < now →
         acceptInvite w token user now = .error .expired) ∧
      (inv.accepted = false → ¬ inv.expiresAt < now → user.email ≠ inv.email →
         acceptInvite w token user now = .error .emailMismatch) ∧
      (inv.accepted = false → ¬ inv.expiresAt < now → user.email = inv.email →
         (w.members.any (fun m => m.userId = user.clerkId) = true ∨
            w.ownerId = user.internalId) →
         acceptInvite w token user now = .error .alreadyMember) ∧
      (inv.accepted = false → ¬ inv.expiresAt < now → user.email = inv.email →
         w.members.any (fun m => m.userId = user.clerkId) = false →
         w.ownerId ≠ user.internalId →
         ∃ w2, acceptInvite w token user now = .ok w2 ∧
           w2.members.any (fun m => m.userId = user.clerkId) = true ∧
           (w2.invites.find? (fun inv2 => inv2.token = token)).map
               WorkspaceInvite.accepted = some true)) := by
  constructor
  · intro hnone
    simp [acceptInvite, acceptChecks, hnone]
  · intro inv hfind
    refine ⟨?_, ?_, ?_, ?_, ?_⟩
    · intro hacc
      simp [acceptInvite, acceptChecks, hfind, hacc]
    · intro hacc hexp
      simp [acceptInvite, acceptChecks, hfind, hacc, hexp]
    · intro hacc hexp hmail
      simp [acceptInvite, acceptChecks, hfind, hacc, hexp, hmail]
    · intro hacc hexp hmail hmem
      rcases hmem with h | h
      · simp [acceptInvite, acceptChecks, hfind, hacc, hexp, hmail, h]
      · simp [acceptInvite, acceptChecks, hfind, hacc, hexp, hmail, h]
    · intro hacc hexp hmail hmem howner
      have htok : inv.token = token := by
        simpa using List.find?_some hfind
      have hany : w.invites.any (fun inv2 => inv2.token = token) = true :=
        List.any_eq_true.mpr ⟨inv, List.mem_of_find?_eq_some hfind, by simpa using htok⟩
      have hadd : addMemberByClerkId w user.clerkId inv.role (some inv.invitedByClerkId) now =
          .ok (acceptFirstWrite w user inv now) := by
        simp [addMemberByClerkId, hmem, acceptFirstWrite, acceptNewMember]
      have hres : acceptInvite w token user now =
          .ok (acceptSecondWrite (acceptFirstWrite w user inv now) inv token
                user.clerkId now) := by
        simp [acceptInvite, acceptChecks, hfind, hacc, hexp, hmail, hmem, howner, hadd]
      refine ⟨_, hres, ?_, ?_⟩
      · simp [acceptSecondWrite, acceptFirstWrite, acceptNewMember, hany, List.any_append]
      · have hset : (acceptSecondWrite (acceptFirstWrite w user inv now) inv token
              user.clerkId now).invites =
            setFirst (fun inv2 => inv2.token = token)
              ({ inv with
                 accepted := true,
                 acceptedAt := some now,
                 acceptedByClerkId := some user.clerkId }) w.invites := by
          simp [acceptSecondWrite, acceptFirstWrite, hany]
        rw [hset, find?_setFirst _ _ _ hany (by simpa using htok)]
        rfl

/-- C5 witness: the full ladder passes on the concrete scenario and the
result both holds the new member and reports the invite accepted. -/
theorem acceptInvite_check_order_witness :
    ∃ w2, acceptInvite acceptExampleWorkspace "T" acceptingUser 50 = .ok w2 ∧
      w2.members.any (fun m => m.userId = acceptingUser.clerkId) = true ∧
      (w2.invites.find? (fun inv2 => inv2.token = "T")).map
          WorkspaceInvite.accepted = some true :=
  ((acceptInvite_check_order acceptExampleWorkspace "T" acceptingUser 50).2
      acceptExampleInvite (by decide)).2.2.2.2
    (by decide) (by decide) (by decide) (by decide) (by decide)

/-- Project visibility, from ProjectDomain.ProjectVisibility. -/
inductive ProjectVisibility
  | PUBLIC
  | PRIVATE
deriving DecidableEq, Repr

/-- A project member row, from ProjectDomain.ProjectMember. -/
structure ProjectMember where
  userId : String
  role : WorkspaceRole
  addedAt : Nat
  addedBy : String
deriving DecidableEq, Repr

/-- The domain Project object; the Project class constructor populates
members only for PRIVATE visibility. -/
structure Project where
  id : String
  workspaceId : String
  visibility : ProjectVisibility
  members : Option (List ProjectMember)
deriving DecidableEq, Repr

/-- The stored Mongo project document, restricted to the fields the
visibility and membership operations touch. -/
structure StoredProject where
  id : String
  workspaceId : String
  visibility : ProjectVisibility
  members : Option (List ProjectMember)
  updatedAt : Nat
deriving DecidableEq, Repr

/-- MongoProjectRepository.mapMongoToDomain composed with the Project
constructor: the stored members field is passed through when present, and the
constructor keeps it (defaulting to the empty list) only under PRIVATE
visibility. -/
def loadProject (doc : StoredProject) : Project :=
  { id := doc.id, workspaceId := doc.workspaceId, visibility := doc.visibility,
    members := if doc.visibility = .PRIVATE then some (doc.members.getD []) else none }

/-- The part of a ProjectService.updateProject partial update relevant here;
a field left none is absent from the update (undefined in TS). -/
structure ProjectUpdateData where
  visibility : Option ProjectVisibility := none
  members : Option (List ProjectMember) := none
deriving Repr

/-- MongoProjectRepository.update: a Mongo $set of exactly the fields present
in the partial update; fields absent from the update stay as stored. -/
def mongoProjectUpdate (doc : StoredProject) (u : ProjectUpdateData) (now : Nat) :
    StoredProject :=
  { doc with
    visibility := u.visibility.getD doc.visibility,
    members := match u.members with
      | some ms => some ms
      | none => doc.members,
    updatedAt := now }

/-- ProjectService.updateProject restricted to a visibility change: the
update data it builds carries visibility and updatedAt only — it never adds a
members field, in either direction of the change. -/
def updateProjectVisibility (doc : StoredProject) (v : ProjectVisibility) (now : Nat) :
    StoredProject :=
  mongoProjectUpdate doc { visibility := some v } now

/-- The project-member shape ProjectService.getEffectiveMembers gives a
workspace member of a PUBLIC project: addedAt is the workspace join date and
addedBy is assumed to be the workspace owner. -/
def toProjectMember (ws : Workspace) (wm : WorkspaceMember) : ProjectMember :=
  { userId := wm.userId, role := wm.role, addedAt := wm.joinedAt, addedBy := ws.ownerId }

/-- The synthesized owner entry getEffectiveMembers unshifts when the owner
is not among the workspace members. -/
def ownerProjectMember (ws : Workspace) (now : Nat) : ProjectMember :=
  { userId := ws.ownerId, role := .OWNER, addedAt := ws.createdAt.getD now,
    addedBy := ws.ownerId }

/-- ProjectService.getEffectiveMembers, with the repository lookups explicit:
for a PRIVATE project the stored list (empty when absent); for a PUBLIC
project the owning workspace members converted, with the owner entry
prepended when missing, and the empty list when the workspace lookup misses. -/
def getEffectiveMembers (project : Project) (workspace : Option Workspace) (now : Nat) :
    List ProjectMember :=
  if project.visibility = .PRIVATE then
    project.members.getD []
  else
    match workspace with
    | none => []
    | some ws =>
      let mapped := ws.members.map (toProjectMember ws)
      if mapped.any (fun m => m.userId = ws.ownerId) then mapped
      else ownerProjectMember ws now :: mapped

/-- A private project document holding one stored roster entry. -/
def storedPrivateProject : StoredProject :=
  { id := "p1", workspaceId := "ws1", visibility := .PRIVATE,
    members := some [{ userId := "u2", role := .EDITOR, addedAt := 3, addedBy := "u1" }],
    updatedAt := 0 }

/-- C3 counterexample: switching a stored PRIVATE project to PUBLIC leaves
the persisted members field intact (no truncation happens), and switching
back to PRIVATE loads the old roster again instead of starting empty. -/
theorem visibility_roundtrip_keeps_roster_cex :
    (updateProjectVisibility storedPrivateProject .PUBLIC 1).members =
      some [{ userId := "u2", role := .EDITOR, addedAt := 3, addedBy := "u1" }] ∧
    (loadProject (updateProjectVisibility
        (updateProjectVisibility storedPrivateProject .PUBLIC 1) .PRIVATE 2)).members =
      some [{ userId := "u2", role := .EDITOR, addedAt := 3, addedBy := "u1" }] :=
  ⟨rfl, rfl⟩

/-- C3 amended: a visibility change never touches the persisted members
field; the roster of a project made PUBLIC is only hidden at read time (the
loaded domain object has no members), and a later change back to PRIVATE
loads exactly the roster stored before, not an empty one. -/
theorem updateProjectVisibility_amended (doc : StoredProject) (v : ProjectVisibility)
    (now : Nat) :
    (updateProjectVisibility doc v now).members = doc.members ∧
    (v = .PUBLIC → (loadProject (updateProjectVisibility doc v now)).members = none) ∧
    (v = .PRIVATE → (loadProject (updateProjectVisibility doc v now)).members =
        some (doc.members.getD [])) := by
  refine ⟨rfl, ?_, ?_⟩ <;> rintro rfl <;>
    simp [loadProject, updateProjectVisibility, mongoProjectUpdate]

/-- C3 witness: the amended statement instantiated on the concrete stored
project, with the PRIVATE-direction hypothesis discharged. -/
theorem updateProjectVisibility_amended_witness :
    (updateProjectVisibility storedPrivateProject .PRIVATE 2).members =
        storedPrivateProject.members ∧
    (loadProject (updateProjectVisibility storedPrivateProject .PRIVATE 2)).members =
        some (storedPrivateProject.members.getD []) :=
  ⟨(updateProjectVisibility_amended storedPrivateProject .PRIVATE 2).1,
   (updateProjectVisibility_amended storedPrivateProject .PRIVATE 2).2.2 rfl⟩

/-- Unfolding of getEffectiveMembers on a PUBLIC project with its workspace
found. -/
theorem getEffectiveMembers_public (p : Project) (ws : Workspace) (now : Nat)
    (hpub : p.visibility = .PUBLIC) :
    getEffectiveMembers p (some ws) now =
      (if (ws.members.map (toProjectMember ws)).any (fun m => m.userId = ws.ownerId)
       then ws.members.map (toProjectMember ws)
       else ownerProjectMember ws now :: ws.members.map (toProjectMember ws)) := by
  simp only [getEffectiveMembers, hpub]
  rfl

/-- C6: on a PUBLIC project, getEffectiveMembers is independent of any stored
project member list; its output is the owner united with the workspace
members, deduplicated by user id, the owner present at role OWNER, each
workspace member annotated with its join date and the owner as addedBy; on a
PRIVATE project it is the stored list verbatim.  The hypotheses are the
workspace invariants: member user ids are unique and the owner is never
listed under a different role. -/
theorem getEffectiveMembers_spec (p : Project) (ws : Workspace) (now : Nat)
    (hpub : p.visibility = .PUBLIC)
    (hnodup : (ws.members.map WorkspaceMember.userId).Nodup)
    (hownrole : ∀ wm ∈ ws.members, wm.userId = ws.ownerId → wm.role = .OWNER) :
    (∀ stored, getEffectiveMembers { p with members := stored } (some ws) now =
        getEffectiveMembers p (some ws) now) ∧
    (∀ u, u ∈ (getEffectiveMembers p (some ws) now).map ProjectMember.userId ↔
        (u = ws.ownerId ∨ u ∈ ws.members.map WorkspaceMember.userId)) ∧
    ((getEffectiveMembers p (some ws) now).map ProjectMember.userId).Nodup ∧
    (∃ m ∈ getEffectiveMembers p (some ws) now,
        m.userId = ws.ownerId ∧ m.role = .OWNER) ∧
    (∀ wm ∈ ws.members,
        toProjectMember ws wm ∈ getEffectiveMembers p (some ws) now) ∧
    (∀ q : Project, q.visibility = .PRIVATE →
        getEffectiveMembers q (some ws) now = q.members.getD []) := by
  have hids : (ws.members.map (toProjectMember ws)).map ProjectMember.userId =
      ws.members.map WorkspaceMember.userId := by
    rw [List.map_map]
    rfl
  have hmain := getEffectiveMembers_public p ws now hpub
  refine ⟨?_, ?_, ?_, ?_, ?_, ?_⟩
  · intro stored
    simp [getEffectiveMembers, hpub]
  · intro u
    rw [hmain]
    by_cases hc : (ws.members.map (toProjectMember ws)).any
        (fun m => m.userId = ws.ownerId) = true
    · rw [if_pos hc, hids]
      have howner_mem : ws.ownerId ∈ ws.members.map WorkspaceMember.userId := by
        rcases List.any_eq_true.mp hc with ⟨m, hm, hme⟩
        rcases List.mem_map.mp hm with ⟨wm, hwm, rfl⟩
        have hwid : wm.userId = ws.ownerId := by simpa [toProjectMember] using hme
        exact hwid ▸ List.mem_map_of_mem _ hwm
      constructor
      · exact fun hu => Or.inr hu
      · rintro (rfl | hu)
        · exact howner_mem
        · exact hu
    · rw [if_neg hc]
      simp only [List.map_cons, ownerProjectMember, List.mem_cons, hids]
  · rw [hmain]
    by_cases hc : (ws.members.map (toProjectMember ws)).any
        (fun m => m.userId = ws.ownerId) = true
    · rw [if_pos hc, hids]
      exact hnodup
    · rw [if_neg hc, List.map_cons, hids]
      refine List.nodup_cons.mpr ⟨?_, hnodup⟩
      intro hmem
      apply hc
      rcases List.mem_map.mp hmem with ⟨wm, hwm, hwid⟩
      exact List.any_eq_true.mpr ⟨toProjectMember ws wm, List.mem_map_of_mem _ hwm,
        by simp [toProjectMember, ownerProjectMember, hwid]⟩
  · rw [hmain]
    by_cases hc : (ws.members.map (toProjectMember ws)).any
        (fun m => m.userId = ws.ownerId) = true
    · rw [if_pos hc]
      rcases List.any_eq_true.mp hc with ⟨m, hm, hme⟩
      rcases List.mem_map.mp hm with ⟨wm, hwm, rfl⟩
      have hwid : wm.userId = ws.ownerId := by simpa [toProjectMember] using hme
      exact ⟨toProjectMember ws wm, List.mem_map_of_mem _ hwm, hwid,
        by simp [toProjectMember, hownrole wm hwm hwid]⟩
    · rw [if_neg hc]
      exact ⟨ownerProjectMember ws now, List.mem_cons_self _ _, rfl, rfl⟩
  · intro wm hwm
    rw [hmain]
    by_cases hc : (ws.members.map (toProjectMember ws)).any
        (fun m => m.userId = ws.ownerId) = true
    · rw [if_pos hc]
      exact List.mem_map_of_mem _ hwm
    · rw [if_neg hc]
      exact List.mem_cons_of_mem _ (List.mem_map_of_mem _ hwm)
  · intro q hq
    simp [getEffectiveMembers, hq]

/-- A PUBLIC project under the workspace below. -/
def publicExampleProject : Project :=
  { id := "p2", workspaceId := "ws1", visibility := .PUBLIC, members := none }

/-- A workspace with one non-owner member, satisfying both invariants. -/
def effectiveExampleWorkspace : Workspace :=
  { id := "ws1", name := "Acme", slug := "acme", ownerId := "u1",
    members := [{ userId := "u2", role := .EDITOR, joinedAt := 3 }], invites := [],
    createdAt := some 0 }

/-- C6 witness: the member-set characterization at user u2 and the owner
entry, on the concrete PUBLIC project. -/
theorem getEffectiveMembers_spec_witness :
    ("u2" ∈ (getEffectiveMembers publicExampleProject
          (some effectiveExampleWorkspace) 9).map ProjectMember.userId ↔
      ("u2" = effectiveExampleWorkspace.ownerId ∨
        "u2" ∈ effectiveExampleWorkspace.members.map WorkspaceMember.userId)) ∧
    (∃ m ∈ getEffectiveMembers publicExampleProject (some effectiveExampleWorkspace) 9,
        m.userId = effectiveExampleWorkspace.ownerId ∧ m.role = .OWNER) :=
  ⟨(getEffectiveMembers_spec publicExampleProject effectiveExampleWorkspace 9 rfl
      (by decide) (by decide)).2.1 "u2",
   (getEffectiveMembers_spec publicExampleProject effectiveExampleWorkspace 9 rfl
      (by decide) (by decide)).2.2.2.1⟩

/-- Notification channel, from NotificationDomain.NotificationType. -/
inductive NotificationType
  | EMAIL
  | SMS
  | PUSH
deriving DecidableEq, Repr

/-- Delivery states, from NotificationDomain.NotificationStatus. -/
inductive NotificationStatus
  | PENDING
  | SENT
  | DELIVERED
  | FAILED
  | BOUNCED
deriving DecidableEq, Repr

/-- The verdict of the external email provider (EmailProvider.sendEmail). -/
structure ProviderResult where
  success : Bool
  messageId : Option String := none
  error : Option String := none
deriving DecidableEq, Repr

/-- A notification record, from NotificationDomain.Notification, restricted
to the fields the delivery state machine reads or writes; the provider
message id stored under metadata is the messageId field here. -/
structure Notification where
  id : String
  type : NotificationType
  status : NotificationStatus
  recipient : String
  subject : String
  retryCount : Nat
  maxRetries : Nat
  sentAt : Option Nat := none
  failedAt : Option Nat := none
  failureReason : Option String := none
  messageId : Option String := none
  updatedAt : Nat := 0
deriving DecidableEq, Repr

/-- Notification.markAsSent. -/
def Notification.markAsSent (n : Notification) (now : Nat) : Notification :=
  { n with status := .SENT, sentAt := some now, updatedAt := now }

/-- Notification.markAsFailed: records the reason and also increments
retryCount. -/
def Notification.markAsFailed (n : Notification) (reason : String) (now : Nat) :
    Notification :=
  { n with
    status := .FAILED,
    failedAt := some now,
    failureReason := some reason,
    retryCount := n.retryCount + 1,
    updatedAt := now }

/-- Notification.canRetry. -/
def Notification.canRetry (n : Notification) : Bool :=
  decide (n.status = .FAILED ∧ n.retryCount < n.maxRetries)

/-- The email payload of NotificationService.sendEmail, reduced to the fields
that reach the stored record. -/
structure EmailData where
  recipients : List String
  subject : String
deriving DecidableEq, Repr

/-- What NotificationService.sendEmail returns together with the stored
record it leaves behind. -/
structure SendOutcome where
  success : Bool
  error : Option String
  stored : Notification
deriving DecidableEq, Repr

/-- NotificationService.sendEmail: create and save a PENDING record (newId is
the id the repository assigns), call the provider, then on success store the
record marked sent with the provider message id, and on failure store it
marked failed with the failure reason; either way the verdict comes back as
the success flag of a normal return value, not an exception. -/
def sendEmail (e : EmailData) (newId : String) (pr : ProviderResult) (now : Nat) :
    SendOutcome :=
  let saved : Notification :=
    { id := newId, type := .EMAIL, status := .PENDING,
      recipient := e.recipients.headD "", subject := e.subject,
      retryCount := 0, maxRetries := 3, updatedAt := now }
  if pr.success then
    { success := true, error := none,
      stored := { saved.markAsSent now with messageId := pr.messageId } }
  else
    { success := false, error := pr.error,
      stored := saved.markAsFailed (pr.error.getD "Unknown error") now }

/-- The outcomes of NotificationService.resendNotification: the two early
returns and an actual provider attempt with its verdict. -/
inductive ResendResult
  | notFound
  | notEmail
  | attempted (success : Bool) (error : Option String)
deriving DecidableEq, Repr

/-- Whether a resend outcome is the success verdict. -/
def ResendResult.isSuccess : ResendResult → Bool
  | .attempted true _ => true
  | _ => false

/-- NotificationService.resendNotification: miss and non-email give early
returns without touching state; otherwise the record is set PENDING with
retryCount incremented and stored, the provider is called, and the record is
stored again marked sent or marked failed (markAsFailed increments retryCount
a second time).  No retry-limit check appears anywhere on this path.  The
returned pair is the verdict and the final stored record. -/
def resendNotification (found : Option Notification) (pr : ProviderResult) (now : Nat) :
    ResendResult × Option Notification :=
  match found with
  | none => (.notFound, none)
  | some n =>
    if n.type = .EMAIL then
      let pending : Notification :=
        { n with status := .PENDING, retryCount := n.retryCount + 1, updatedAt := now }
      if pr.success then
        (.attempted true none,
         some { pending.markAsSent now with messageId := pr.messageId })
      else
        (.attempted false pr.error,
         some (pending.markAsFailed (pr.error.getD "Resend failed") now))
    else (.notEmail, some n)

/-- NotificationService.processRetries over the fetched batch: records whose
canRetry is false are skipped untouched; each other record goes through
resendNotification with its own provider verdict.  Returns the successful and
failed counts and the final per-record states. -/
def processRetries (provider : Notification → ProviderResult) (now : Nat) :
    List Notification → Nat × Nat × List Notification
  | [] => (0, 0, [])
  | n :: rest =>
    let acc := processRetries provider now rest
    if n.canRetry then
      let step := resendNotification (some n) (provider n) now
      (acc.1 + (if step.1.isSuccess then 1 else 0),
       acc.2.1 + (if step.1.isSuccess then 0 else 1),
       step.2.getD n :: acc.2.2)
    else (acc.1, acc.2.1, n :: acc.2.2)

/-- C9: sendEmail never signals provider failure by an exception — for every
provider verdict it returns a value whose success flag equals the provider's,
and the stored record moves to SENT with the provider message id on success,
and to FAILED with the failure reason recorded on failure. -/
theorem sendEmail_provider_failure_spec (e : EmailData) (newId : String)
    (pr : ProviderResult) (now : Nat) :
    (sendEmail e newId pr now).success = pr.success ∧
    (sendEmail e newId pr now).stored.status =
      (if pr.success then .SENT else .FAILED) ∧
    (sendEmail e newId pr now).stored.messageId =
      (if pr.success then pr.messageId else none) ∧
    (sendEmail e newId pr now).stored.failureReason =
      (if pr.success then none else some (pr.error.getD "Unknown error")) := by
  by_cases h : pr.success <;>
    simp [sendEmail, Notification.markAsSent, Notification.markAsFailed, h]

/-- C10: a resend whose provider attempt fails increments retryCount by
exactly two — once before the attempt and once more inside markAsFailed — so
the stored count can skip an intermediate value. -/
theorem resend_failure_double_increment (n : Notification) (pr : ProviderResult)
    (now : Nat) (htype : n.type = .EMAIL) (hfail : pr.success = false) :
    ((resendNotification (some n) pr now).2.map Notification.retryCount) =
      some (n.retryCount + 2) := by
  simp [resendNotification, htype, hfail, Notification.markAsFailed]

/-- A notification that already consumed its retry budget: two failed resends
after a failed initial send left retryCount at 5 in the code; this record
uses retryCount exactly equal to maxRetries to match the claim's boundary. -/
def exhaustedNotification : Notification :=
  { id := "n1", type := .EMAIL, status := .FAILED, recipient := "a@x.com",
    subject := "hi", retryCount := 3, maxRetries := 3,
    failureReason := some "boom", failedAt := some 40 }

/-- C10 witness: a failed resend on a record with retryCount 2 stores
retryCount 4, skipping 3. -/
theorem resend_failure_double_increment_witness :
    ((resendNotification
        (some { exhaustedNotification with retryCount := 2 })
        { success := false, error := some "boom" } 50).2.map
          Notification.retryCount) = some 4 :=
  resend_failure_double_increment
    { exhaustedNotification with retryCount := 2 }
    { success := false, error := some "boom" } 50 rfl rfl

/-- C2 counterexample: with retryCount already equal to maxRetries (3), a
further resend is neither rejected nor a no-op — the provider is attempted
and the stored record ends at retryCount 5, contradicting the claimed
terminal bound. -/
theorem resend_fourth_attempt_not_rejected_cex :
    (resendNotification (some exhaustedNotification)
        { success := false, error := some "boom" } 50).1 =
      .attempted false (some "boom") ∧
    ((resendNotification (some exhaustedNotification)
        { success := false, error := some "boom" } 50).2.map
          Notification.retryCount) = some 5 := by
  constructor <;> rfl

/-- C2 amended: once retryCount has reached maxRetries the record is no
longer retried by processRetries (canRetry is false and the sweep leaves it
untouched, counting it neither successful nor failed), but a direct
resendNotification call enforces no limit: it attempts the provider and
increments retryCount past the bound (by one on success, by two on failure). -/
theorem retry_limit_amended (n : Notification) (pr : ProviderResult)
    (provider : Notification → ProviderResult) (now : Nat)
    (htype : n.type = .EMAIL) (hlim : n.maxRetries ≤ n.retryCount) :
    n.canRetry = false ∧
    processRetries provider now [n] = (0, 0, [n]) ∧
    (resendNotification (some n) pr now).1 =
      .attempted pr.success (if pr.success then none else pr.error) ∧
    ((resendNotification (some n) pr now).2.map Notification.retryCount) =
      some (n.retryCount + (if pr.success then 1 else 2)) := by
  have hcr : n.canRetry = false := by
    simp [Notification.canRetry]
    intro _
    omega
  refine ⟨hcr, ?_, ?_, ?_⟩
  · simp [processRetries, hcr]
  · by_cases h : pr.success <;> simp [resendNotification, htype, h]
  · by_cases h : pr.success <;>
      simp [resendNotification, htype, h, Notification.markAsSent,
        Notification.markAsFailed]

/-- C2 amended witness: the exhausted record is skipped by the sweep yet a
direct resend still attempts it. -/
theorem retry_limit_amended_witness :
    exhaustedNotification.canRetry = false ∧
    processRetries (fun _ => { success := false, error := some "boom" }) 50
        [exhaustedNotification] = (0, 0, [exhaustedNotification]) ∧
    (resendNotification (some exhaustedNotification)
        { success := false, error := some "boom" } 50).1 =
      .attempted false (if false then none else some "boom") ∧
    ((resendNotification (some exhaustedNotification)
        { success := false, error := some "boom" } 50).2.map
          Notification.retryCount) =
      some (exhaustedNotification.retryCount + (if false then 1 else 2)) := by
  have h := retry_limit_amended exhaustedNotification
    { success := false, error := some "boom" }
    (fun _ => { success := false, error := some "boom" }) 50 rfl (by decide)
  simpa using h

/-- Seven days in milliseconds, the invite TTL the invite-multiple route sets
via setDate(getDate() + 7). -/
def sevenDays : Nat := 7 * 86400000

/-- The per-email failure entries of the invite-multiple route. -/
inductive InviteError
  | alreadyMemberEmail
  | pendingInviteExists
deriving DecidableEq, Repr

/-- The loop body of the invite-multiple route for one email: reject when the
email resolves to an existing user who is a member or the owner (compared by
internal id), reject when an unaccepted, unexpired invite for the email is
already on the workspace, otherwise build the invite with a fresh token,
expiresAt seven days out and accepted false.  existingUser is the
userService.findByEmail lookup; inviteId and token are the generated random
strings. -/
def createInviteForEmail (w : Workspace) (existingUser : Option User) (email : String)
    (role : WorkspaceRole) (inviterClerkId inviteId token : String) (now : Nat) :
    Except InviteError WorkspaceInvite :=
  if (match existingUser with
      | some u => w.members.any (fun m => m.userId = u.internalId) ||
                  decide (w.ownerId = u.internalId)
      | none => false) then
    .error .alreadyMemberEmail
  else if w.invites.any (fun inv =>
      decide (inv.email = email) && !inv.accepted && decide (now < inv.expiresAt)) then
    .error .pendingInviteExists
  else
    .ok { id := inviteId, email := email, role := role,
          invitedByClerkId := inviterClerkId, token := token,
          expiresAt := now + sevenDays, createdAt := now, accepted := false }

/-- C7: every invite the route creates expires exactly seven days after
creation and starts unaccepted; the creation is refused with a conflict when
a live (unaccepted, unexpired) invite for the same email already exists on
the workspace, and when the email already resolves to a member or the owner. -/
theorem createInvite_spec (w : Workspace) (existingUser : Option User) (email : String)
    (role : WorkspaceRole) (inviterClerkId inviteId token : String) (now : Nat) :
    (∀ inv, createInviteForEmail w existingUser email role inviterClerkId
        inviteId token now = .ok inv →
      inv.expiresAt = now + sevenDays ∧ inv.createdAt = now ∧ inv.accepted = false) ∧
    (∀ u, existingUser = some u →
      (w.members.any (fun m => m.userId = u.internalId) ||
        decide (w.ownerId = u.internalId)) = true →
      createInviteForEmail w existingUser email role inviterClerkId
        inviteId token now = .error .alreadyMemberEmail) ∧
    ((match existingUser with
      | some u => w.members.any (fun m => m.userId = u.internalId) ||
                  decide (w.ownerId = u.internalId)
      | none => false) = false →
      w.invites.any (fun inv =>
        decide (inv.email = email) && !inv.accepted && decide (now < inv.expiresAt)) = true →
      createInviteForEmail w existingUser email role inviterClerkId
        inviteId token now = .error .pendingInviteExists) := by
  refine ⟨?_, ?_, ?_⟩
  · intro inv hok
    simp only [createInviteForEmail] at hok
    split at hok
    · exact absurd hok (by simp)
    · split at hok
      · exact absurd hok (by simp)
      · cases hok
        exact ⟨rfl, rfl, rfl⟩
  · intro u hu hmem
    subst hu
    simp [createInviteForEmail, hmem]
  · intro hnomem hlive
    simp [createInviteForEmail, hnomem, hlive]

/-- The workspace the invite-creation witness runs against: one member u2 and
one live invite for b@x.com at time 10. -/
def inviteExampleWorkspace : Workspace :=
  { id := "ws1", name := "Acme", slug := "acme", ownerId := "u1",
    members := [{ userId := "u2", role := .EDITOR, joinedAt := 3 }],
    invites := [{ id := "inv1", email := "b@x.com", role := .EDITOR,
                  invitedByClerkId := "c1", token := "T", expiresAt := 100,
                  createdAt := 0, accepted := false }] }

/-- The invite the route creates for the fresh email c@x.com at time 10. -/
def freshExampleInvite : WorkspaceInvite :=
  { id := "inv2", email := "c@x.com", role := .EDITOR, invitedByClerkId := "c1",
    token := "T2", expiresAt := 10 + sevenDays, createdAt := 10, accepted := false }

/-- C7 witness: on the concrete workspace, the invite created for a fresh
email carries the seven-day expiry and accepted false, and the live invite
for b@x.com blocks a duplicate. -/
theorem createInvite_spec_witness :
    (freshExampleInvite.expiresAt = 10 + sevenDays ∧
      freshExampleInvite.createdAt = 10 ∧ freshExampleInvite.accepted = false) ∧
    createInviteForEmail inviteExampleWorkspace none "b@x.com" .EDITOR "c1" "inv3"
        "T3" 10 = .error .pendingInviteExists :=
  ⟨(createInvite_spec inviteExampleWorkspace none "c@x.com" .EDITOR "c1" "inv2"
      "T2" 10).1 freshExampleInvite rfl,
   (createInvite_spec inviteExampleWorkspace none "b@x.com" .EDITOR "c1" "inv3"
      "T3" 10).2.2 (by decide) (by decide)⟩

end Lmk
